import Mathlib

/-!
A shallow embedding, in Lean 4, of the RAG ingestion pipeline
(`src/lib/ingestion.ts`) and of the chat HTTP route handler of this
repository, together with theorems settling the specification claims.

External collaborators (the filesystem listing, the PDF text extractor,
the text splitter, the Gemini embedding API and the Chroma vector store)
are modelled as explicit inputs collected in an `Env` record; fallible
calls are `Except`-valued.  The vector-store upsert and the embedding API
calls are observable effects, recorded in a trace of `Event`s so that
theorems can speak about which calls a run performs.
-/

namespace RagPipeline

/-- Embedding vectors are opaque numeric arrays (`number[]` in the source);
the pipeline never inspects their contents. -/
abbrev EmbeddingVector := List Float

/-- Constant `BATCH_SIZE = 100` of `src/lib/ingestion.ts`. -/
def BATCH_SIZE : Nat := 100

/-- The documents directory (`path.join(process.cwd(), 'documents')`); the
`cwd` prefix is environment-dependent and irrelevant to every claim. -/
def DOCUMENTS_DIR : String := "documents"

/-- The error message rethrown by `generateEmbeddings` when an embedding
batch call fails or returns no embeddings. -/
def geminiApiError : String :=
  "Failed to call Gemini Embedding API. Check API Key and network connection."

/-- The error carried by the failure result when the directory holds no
PDF files. -/
def noPdfFilesError : String :=
  "No PDF files found in the directory: " ++ DOCUMENTS_DIR

/-- JavaScript `s.endsWith(sfx)`, as used in `file.endsWith('.pdf')`:
the suffix test on the character sequence. -/
def jsEndsWith (s sfx : String) : Bool :=
  sfx.data.isSuffixOf s.data

/-- One metadata record pushed for a chunk:
`{ source: fileName, chunk_index: i }`. -/
structure Metadata where
  source : String
  chunk_index : Nat
deriving DecidableEq

/-- The argument of one `collection.upsert` call: the four parallel arrays. -/
structure UpsertCall where
  ids : List String
  embeddings : List EmbeddingVector
  documents : List String
  metadatas : List Metadata

/-- Observable external effects of an ingestion run: one embedding API
call (`ai.models.embedContent` on one batch) or one vector-store upsert. -/
inductive Event where
  | embedCall (batch : List String)
  | upsertCall (call : UpsertCall)

/-- The environment of external collaborators of `ingestDocuments`.
`extract fileName` is the result of `extractTextFromPdf` (already
`.trim()`-med, or the thrown error); `splitText` is the
`RecursiveCharacterTextSplitter`; `embedContent` is one embedding API call
on one batch, returning the vectors or the thrown/empty-response failure;
`connect` is `getOrCreateCollection`. -/
structure Env where
  connect : Except String Unit
  files : List String
  extract : String → Except String String
  splitText : String → List String
  embedContent : List String → Except String (List EmbeddingVector)

/-- The loop of `generateEmbeddings`: process `allChunks` a batch of
`BATCH_SIZE` at a time.  First component: the returned vector list, or the
error thrown on the first failing batch (`geminiApiError` rethrown by the
`catch`).  Second component: the list of batches actually submitted to the
embedding API, in order (the failing batch included).  The `fuel`
argument, instantiated with the chunk count, makes the `i += BATCH_SIZE`
loop structurally recursive; `BATCH_SIZE > 0` makes it irrelevant
(`generateEmbeddingsGo_fuel_eq`). -/
def generateEmbeddingsGo (ec : List String → Except String (List EmbeddingVector)) :
    Nat → List String → Except String (List EmbeddingVector) × List (List String)
  | _, [] => (.ok [], [])
  | 0, _ :: _ => (.ok [], [])
  | fuel + 1, c :: cs =>
    match ec ((c :: cs).take BATCH_SIZE) with
    | .error _ => (.error geminiApiError, [(c :: cs).take BATCH_SIZE])
    | .ok embs =>
      if embs.isEmpty then
        (.error geminiApiError, [(c :: cs).take BATCH_SIZE])
      else
        ((match (generateEmbeddingsGo ec fuel ((c :: cs).drop BATCH_SIZE)).1 with
          | .error e => .error e
          | .ok es => .ok (embs ++ es)),
         (c :: cs).take BATCH_SIZE :: (generateEmbeddingsGo ec fuel ((c :: cs).drop BATCH_SIZE)).2)

/-- Function `generateEmbeddings(allChunks)`: the value returned (all batch results
concatenated in order) or the error thrown. -/
def generateEmbeddings (ec : List String → Except String (List EmbeddingVector))
    (allChunks : List String) : Except String (List EmbeddingVector) :=
  (generateEmbeddingsGo ec allChunks.length allChunks).1

/-- The embedding API calls performed by `generateEmbeddings(allChunks)`,
in order. -/
def generateEmbeddingsCalls (ec : List String → Except String (List EmbeddingVector))
    (allChunks : List String) : List (List String) :=
  (generateEmbeddingsGo ec allChunks.length allChunks).2

/-- The successive slices `allChunks.slice(i, i + BATCH_SIZE)` taken by the
loop of `generateEmbeddings`, via the same fuel-indexed recursion. -/
def chunkBatchesGo : Nat → List String → List (List String)
  | _, [] => []
  | 0, _ :: _ => []
  | fuel + 1, c :: cs =>
    (c :: cs).take BATCH_SIZE :: chunkBatchesGo fuel ((c :: cs).drop BATCH_SIZE)

/-- The batches into which a chunk list is cut. -/
def chunkBatches (chunks : List String) : List (List String) :=
  chunkBatchesGo chunks.length chunks

/-- A batch result that makes `generateEmbeddings` throw: the API call
errored, or `response.embeddings` is missing/empty. -/
def batchFails : Except String (List EmbeddingVector) → Bool
  | .error _ => true
  | .ok embs => embs.isEmpty

/-- The ids built for a file: `` `${fileName}-${i}` `` for `i` below the
chunk count. -/
def mkIds (fileName : String) (n : Nat) : List String :=
  (List.range n).map fun i => fileName ++ "-" ++ toString i

/-- The four parallel arrays passed to `collection.upsert` for one file. -/
def buildUpsert (fileName : String) (chunks : List String)
    (embeddings : List EmbeddingVector) : UpsertCall :=
  { ids := mkIds fileName chunks.length
    embeddings := embeddings
    documents := chunks
    metadatas := (List.range chunks.length).map fun i => ⟨fileName, i⟩ }

/-- Outcome of the `for (const fileName of files)` loop: normal completion
with the accumulated `chunkCount`, or an exception escaping the loop.  In
both cases the trace of effects performed up to that point is kept. -/
inductive RunOutcome where
  | ok (chunkCount : Nat) (trace : List Event)
  | err (msg : String) (trace : List Event)

/-- The effects a loop outcome performed. -/
def RunOutcome.trace : RunOutcome → List Event
  | .ok _ t => t
  | .err _ t => t

/-- The per-file loop of `ingestDocuments`: extract the text, skip the
file when the trimmed text is empty or yields no chunks, otherwise embed
the chunks batchwise and upsert the four parallel arrays.  Any thrown
error (`extractTextFromPdf` or `generateEmbeddings`) escapes the loop. -/
def processFiles (env : Env) : List String → Nat → List Event → RunOutcome
  | [], chunkCount, trace => .ok chunkCount trace
  | fileName :: rest, chunkCount, trace =>
    match env.extract fileName with
    | .error e => .err e trace
    | .ok fullText =>
      if fullText.length = 0 then
        processFiles env rest chunkCount trace
      else
        let chunks := env.splitText fullText
        if chunks.length = 0 then
          processFiles env rest chunkCount trace
        else
          match generateEmbeddings env.embedContent chunks with
          | .error e =>
            .err e (trace ++ (generateEmbeddingsCalls env.embedContent chunks).map Event.embedCall)
          | .ok embeddings =>
            processFiles env rest (chunkCount + chunks.length)
              ((trace ++ (generateEmbeddingsCalls env.embedContent chunks).map Event.embedCall)
                ++ [Event.upsertCall (buildUpsert fileName chunks embeddings)])

/-- The `{ success, count, error? }` object returned by `ingestDocuments`. -/
structure IngestResult where
  success : Bool
  count : Nat
  error : Option String
deriving DecidableEq

/-- Function `ingestDocuments()`: connect to the vector store, list the `.pdf`
files, fail without throwing when there are none, and run the per-file
loop; any thrown error is caught and converted into
`{ success: false, count: 0, error }`.  The second component is the trace
of external effects the run performed. -/
def ingestDocuments (env : Env) : IngestResult × List Event :=
  match env.connect with
  | .error e => ({ success := false, count := 0, error := some e }, [])
  | .ok _ =>
    let files := env.files.filter fun f => jsEndsWith f ".pdf"
    if files.length = 0 then
      ({ success := false, count := 0, error := some noPdfFilesError }, [])
    else
      match processFiles env files 0 [] with
      | .ok c trace => ({ success := true, count := c, error := none }, trace)
      | .err e trace => ({ success := false, count := 0, error := some e }, trace)

/-- The upsert calls recorded in a trace, in order. -/
def upserts (trace : List Event) : List UpsertCall :=
  trace.filterMap fun e =>
    match e with
    | .upsertCall c => some c
    | .embedCall _ => none

/-! The chat route handler (`POST` in the app route file): parse the JSON
body, reject a missing or falsy `query` with 400, otherwise stream the
result of `runRAGChat(query)` with 200, converting any thrown error into
a 500 JSON response. -/

/-- The observable pieces of a `NextResponse` produced by the handler. -/
structure ChatResponse where
  status : Nat
  contentType : Option String
  transferEncoding : Option String
  errorField : Option String
  detailsField : Option String
  streamBody : Option String
deriving DecidableEq

/-- The 400 message of the handler. -/
def missingQueryError : String := "Missing query parameter in request body."

/-- The 500 message of the handler. -/
def ragProcessingError : String := "An error occurred during RAG processing."

/-- Response `NextResponse.json({ error }, { status: 400 })`. -/
def jsonResponse400 : ChatResponse :=
  { status := 400, contentType := some "application/json", transferEncoding := none
    errorField := some missingQueryError, detailsField := none, streamBody := none }

/-- Response `NextResponse.json({ error, details }, { status: 500 })`. -/
def jsonResponse500 (details : String) : ChatResponse :=
  { status := 500, contentType := some "application/json", transferEncoding := none
    errorField := some ragProcessingError, detailsField := some details, streamBody := none }

/-- Response `new NextResponse(stream)` with text/plain chunked headers, status 200. -/
def streamResponse200 (stream : String) : ChatResponse :=
  { status := 200, contentType := some "text/plain; charset=utf-8"
    transferEncoding := some "chunked"
    errorField := none, detailsField := none, streamBody := some stream }

/-- The `POST` handler.  `body` is the result of `await req.json()`
projected on its `query` field (`.error` = the body failed to parse and
threw; `none` = no `query` field; `some s` = `query` bound to the string
`s`, the empty string being the falsy case of `if (!query)`).
`runRAGChat` is the opaque retrieval+generation routine, `.error` meaning
it threw.  The second component records whether `runRAGChat` was invoked. -/
def POST (body : Except String (Option String))
    (runRAGChat : String → Except String String) : ChatResponse × Bool :=
  match body with
  | .error e => (jsonResponse500 e, false)
  | .ok none => (jsonResponse400, false)
  | .ok (some query) =>
    if query = "" then (jsonResponse400, false)
    else
      match runRAGChat query with
      | .error e => (jsonResponse500 e, true)
      | .ok stream => (streamResponse200 stream, true)

/-! Concrete environments used as counterexamples and witnesses. -/

/-- The error thrown by the PDF extractor in the C1 scenario. -/
def pdfParseError : String := "PDF parsing failed"

/-- Two PDF files; extraction throws on the first and succeeds on the
second. -/
def c1Env : Env :=
  { connect := .ok ()
    files := ["a.pdf", "b.pdf"]
    extract := fun f => if f = "a.pdf" then .error pdfParseError else .ok "some text"
    splitText := fun t => [t]
    embedContent := fun b => .ok (b.map fun _ => []) }

/-- One PDF file with one chunk and an embedding service returning one
vector per text. -/
def c2Env : Env :=
  { connect := .ok ()
    files := ["a.pdf"]
    extract := fun _ => .ok "some text"
    splitText := fun t => [t]
    embedContent := fun b => .ok (b.map fun _ => []) }

/-- The upsert call the `c2Env` run performs. -/
def c2Call : UpsertCall := buildUpsert "a.pdf" ["some text"] [[]]

/-- A directory with no `.pdf` file at all. -/
def c4Env : Env :=
  { connect := .ok ()
    files := ["notes.txt"]
    extract := fun _ => .ok ""
    splitText := fun _ => []
    embedContent := fun _ => .ok [] }

/-- One PDF file whose single batch fails at the embedding API. -/
def c5Env : Env :=
  { connect := .ok ()
    files := ["a.pdf"]
    extract := fun _ => .ok "some text"
    splitText := fun t => [t]
    embedContent := fun _ => .error "boom" }

/-- Two PDF files, the first yielding empty extracted text. -/
def c8Env : Env :=
  { connect := .ok ()
    files := ["empty.pdf", "b.pdf"]
    extract := fun f => if f = "empty.pdf" then .ok "" else .ok "text"
    splitText := fun t => [t]
    embedContent := fun b => .ok (b.map fun _ => []) }

/-- Two PDF files; the first file's batch embeds fine and is upserted, the
second file's batch fails at the embedding API. -/
def c10Env : Env :=
  { connect := .ok ()
    files := ["a.pdf", "b.pdf"]
    extract := fun f => .ok f
    splitText := fun t => [t]
    embedContent := fun b => if b = ["a.pdf"] then .ok [[]] else .error "boom" }

/-! Helper lemmas: the fuel argument of the batch loop is irrelevant once
it dominates the list length, and the batch decomposition is the expected
slicing. -/

theorem length_drop_batch_le (c : String) (cs : List String) {fuel : Nat}
    (h : (c :: cs).length ≤ fuel + 1) :
    ((c :: cs).drop BATCH_SIZE).length ≤ fuel := by
  simp only [List.length_drop, List.length_cons, BATCH_SIZE] at *
  omega

theorem chunkBatchesGo_fuel_eq :
    ∀ (fuel fuel' : Nat) (l : List String),
      l.length ≤ fuel → l.length ≤ fuel' →
      chunkBatchesGo fuel l = chunkBatchesGo fuel' l := by
  intro fuel
  induction fuel with
  | zero =>
    intro fuel' l h _
    cases l with
    | nil => cases fuel' <;> rfl
    | cons c cs => simp only [List.length_cons] at h; omega
  | succ f ih =>
    intro fuel' l h h'
    cases l with
    | nil => cases fuel' <;> rfl
    | cons c cs =>
      cases fuel' with
      | zero => simp only [List.length_cons] at h'; omega
      | succ f' =>
        show (c :: cs).take BATCH_SIZE :: chunkBatchesGo f ((c :: cs).drop BATCH_SIZE) =
          (c :: cs).take BATCH_SIZE :: chunkBatchesGo f' ((c :: cs).drop BATCH_SIZE)
        rw [ih f' ((c :: cs).drop BATCH_SIZE) (length_drop_batch_le c cs h)
          (length_drop_batch_le c cs h')]

theorem chunkBatches_nil : chunkBatches [] = [] := rfl

theorem chunkBatches_cons (c : String) (cs : List String) :
    chunkBatches (c :: cs) =
      (c :: cs).take BATCH_SIZE :: chunkBatches ((c :: cs).drop BATCH_SIZE) := by
  show (c :: cs).take BATCH_SIZE :: chunkBatchesGo cs.length ((c :: cs).drop BATCH_SIZE) = _
  rw [chunkBatchesGo_fuel_eq cs.length ((c :: cs).drop BATCH_SIZE).length
    ((c :: cs).drop BATCH_SIZE) (length_drop_batch_le c cs (by simp)) (Nat.le_refl _)]
  rfl

theorem chunkBatchesGo_length :
    ∀ (fuel : Nat) (l : List String), l.length ≤ fuel →
      (chunkBatchesGo fuel l).length = (l.length + BATCH_SIZE - 1) / BATCH_SIZE := by
  intro fuel
  induction fuel with
  | zero =>
    intro l h
    cases l with
    | nil => simp [chunkBatchesGo, BATCH_SIZE]
    | cons c cs => simp only [List.length_cons] at h; omega
  | succ f ih =>
    intro l h
    cases l with
    | nil => simp [chunkBatchesGo, BATCH_SIZE]
    | cons c cs =>
      show ((c :: cs).take BATCH_SIZE :: chunkBatchesGo f ((c :: cs).drop BATCH_SIZE)).length = _
      rw [List.length_cons, ih ((c :: cs).drop BATCH_SIZE) (length_drop_batch_le c cs h)]
      simp only [List.length_drop, List.length_cons, BATCH_SIZE]
      omega

theorem chunkBatchesGo_get :
    ∀ (fuel : Nat) (l : List String) (i : Nat) (hf : l.length ≤ fuel)
      (hi : i < (chunkBatchesGo fuel l).length),
      (chunkBatchesGo fuel l).get ⟨i, hi⟩ = (l.drop (i * BATCH_SIZE)).take BATCH_SIZE := by
  intro fuel
  induction fuel with
  | zero =>
    intro l i hf hi
    cases l with
    | nil => simp [chunkBatchesGo] at hi
    | cons c cs => simp only [List.length_cons] at hf; omega
  | succ f ih =>
    intro l i hf hi
    cases l with
    | nil => simp [chunkBatchesGo] at hi
    | cons c cs =>
      cases i with
      | zero => simp [chunkBatchesGo]
      | succ j =>
        have hi' : j < (chunkBatchesGo f ((c :: cs).drop BATCH_SIZE)).length := by
          have := hi
          simp only [chunkBatchesGo, List.length_cons] at this
          omega
        show (chunkBatchesGo f ((c :: cs).drop BATCH_SIZE)).get ⟨j, hi'⟩ = _
        rw [ih ((c :: cs).drop BATCH_SIZE) j (length_drop_batch_le c cs hf) hi',
          List.drop_drop, Nat.succ_mul]
        ring_nf

theorem chunkBatchesGo_flatten :
    ∀ (fuel : Nat) (l : List String), l.length ≤ fuel →
      (chunkBatchesGo fuel l).flatten = l := by
  intro fuel
  induction fuel with
  | zero =>
    intro l h
    cases l with
    | nil => rfl
    | cons c cs => simp only [List.length_cons] at h; omega
  | succ f ih =>
    intro l h
    cases l with
    | nil => rfl
    | cons c cs =>
      show ((c :: cs).take BATCH_SIZE :: chunkBatchesGo f ((c :: cs).drop BATCH_SIZE)).flatten = _
      rw [List.flatten_cons, ih ((c :: cs).drop BATCH_SIZE) (length_drop_batch_le c cs h),
        List.take_append_drop]

theorem generateEmbeddingsGo_succ_cons
    (ec : List String → Except String (List EmbeddingVector)) (f : Nat) (c : String)
    (cs : List String) :
    generateEmbeddingsGo ec (f + 1) (c :: cs) =
      (match ec ((c :: cs).take BATCH_SIZE) with
       | .error _ => (.error geminiApiError, [(c :: cs).take BATCH_SIZE])
       | .ok embs =>
         if embs.isEmpty then
           (.error geminiApiError, [(c :: cs).take BATCH_SIZE])
         else
           ((match (generateEmbeddingsGo ec f ((c :: cs).drop BATCH_SIZE)).1 with
             | .error e => .error e
             | .ok es => .ok (embs ++ es)),
            (c :: cs).take BATCH_SIZE ::
              (generateEmbeddingsGo ec f ((c :: cs).drop BATCH_SIZE)).2)) := rfl

theorem generateEmbeddingsGo_fuel_eq (ec : List String → Except String (List EmbeddingVector)) :
    ∀ (fuel fuel' : Nat) (l : List String),
      l.length ≤ fuel → l.length ≤ fuel' →
      generateEmbeddingsGo ec fuel l = generateEmbeddingsGo ec fuel' l := by
  intro fuel
  induction fuel with
  | zero =>
    intro fuel' l h _
    cases l with
    | nil => cases fuel' <;> rfl
    | cons c cs => simp only [List.length_cons] at h; omega
  | succ f ih =>
    intro fuel' l h h'
    cases l with
    | nil => cases fuel' <;> rfl
    | cons c cs =>
      cases fuel' with
      | zero => simp only [List.length_cons] at h'; omega
      | succ f' =>
        rw [generateEmbeddingsGo_succ_cons ec f, generateEmbeddingsGo_succ_cons ec f',
          ih f' ((c :: cs).drop BATCH_SIZE) (length_drop_batch_le c cs h)
            (length_drop_batch_le c cs h')]

theorem generateEmbeddingsGo_map (f : String → EmbeddingVector) :
    ∀ (fuel : Nat) (l : List String), l.length ≤ fuel →
      generateEmbeddingsGo (fun b => .ok (b.map f)) fuel l =
        (.ok (l.map f), chunkBatchesGo fuel l) := by
  intro fuel
  induction fuel with
  | zero =>
    intro l h
    cases l with
    | nil => rfl
    | cons c cs => simp only [List.length_cons] at h; omega
  | succ fl ih =>
    intro l h
    cases l with
    | nil => rfl
    | cons c cs =>
      rw [generateEmbeddingsGo_succ_cons]
      have hred : (c :: cs).take BATCH_SIZE = c :: cs.take 99 := rfl
      simp only [hred]
      simp only [List.map_cons, List.isEmpty_cons, if_false, Bool.false_eq_true]
      rw [← hred, ih ((c :: cs).drop BATCH_SIZE) (length_drop_batch_le c cs h)]
      show (Except.ok (((c :: cs).take BATCH_SIZE).map f ++ ((c :: cs).drop BATCH_SIZE).map f),
        (c :: cs).take BATCH_SIZE :: chunkBatchesGo fl ((c :: cs).drop BATCH_SIZE)) = _
      rw [← List.map_append, List.take_append_drop]
      rfl

theorem generateEmbeddingsGo_length (ec : List String → Except String (List EmbeddingVector))
    (hec : ∀ b e, ec b = .ok e → e.length = b.length) :
    ∀ (fuel : Nat) (l : List String) (embs : List EmbeddingVector), l.length ≤ fuel →
      (generateEmbeddingsGo ec fuel l).1 = .ok embs → embs.length = l.length := by
  intro fuel
  induction fuel with
  | zero =>
    intro l embs h h2
    cases l with
    | nil =>
      simp only [generateEmbeddingsGo, Except.ok.injEq] at h2
      simp [← h2]
    | cons c cs => simp only [List.length_cons] at h; omega
  | succ fl ih =>
    intro l embs h h2
    cases l with
    | nil =>
      simp only [generateEmbeddingsGo, Except.ok.injEq] at h2
      simp [← h2]
    | cons c cs =>
      cases hb : ec ((c :: cs).take BATCH_SIZE) with
      | error e => simp only [generateEmbeddingsGo, hb] at h2; simp at h2
      | ok bembs =>
        simp only [generateEmbeddingsGo, hb] at h2
        cases hbe : bembs.isEmpty with
        | true => simp only [hbe, if_true] at h2; simp at h2
        | false =>
          simp only [hbe, Bool.false_eq_true, if_false] at h2
          cases hr : (generateEmbeddingsGo ec fl ((c :: cs).drop BATCH_SIZE)).1 with
          | error e => simp only [hr] at h2; simp at h2
          | ok es =>
            simp only [hr, Except.ok.injEq] at h2
            have h3 := ih ((c :: cs).drop BATCH_SIZE) es (length_drop_batch_le c cs h) hr
            have h4 := hec _ _ hb
            rw [← h2, List.length_append, h3, h4, List.length_take, List.length_drop]
            simp only [List.length_cons, BATCH_SIZE]
            omega

theorem generateEmbeddingsGo_fail (ec : List String → Except String (List EmbeddingVector)) :
    ∀ (fuel : Nat) (l : List String) (k : Nat) (hf : l.length ≤ fuel)
      (hk : k < (chunkBatchesGo fuel l).length),
      (∀ j (hj : j < k),
        batchFails (ec ((chunkBatchesGo fuel l).get ⟨j, Nat.lt_trans hj hk⟩)) = false) →
      batchFails (ec ((chunkBatchesGo fuel l).get ⟨k, hk⟩)) = true →
      (generateEmbeddingsGo ec fuel l).1 = .error geminiApiError ∧
      (generateEmbeddingsGo ec fuel l).2 = (chunkBatchesGo fuel l).take (k + 1) := by
  intro fuel
  induction fuel with
  | zero =>
    intro l k hf hk _ _
    cases l with
    | nil => simp [chunkBatchesGo] at hk
    | cons c cs => simp only [List.length_cons] at hf; omega
  | succ fl ih =>
    intro l k hf hk hpre hfail
    cases l with
    | nil => simp [chunkBatchesGo] at hk
    | cons c cs =>
      cases k with
      | zero =>
        have hget : (chunkBatchesGo (fl + 1) (c :: cs)).get ⟨0, hk⟩ =
            (c :: cs).take BATCH_SIZE := rfl
        rw [hget] at hfail
        cases hb : ec ((c :: cs).take BATCH_SIZE) with
        | error e =>
          constructor
          · simp only [generateEmbeddingsGo, hb]
          · simp only [generateEmbeddingsGo, hb]
            simp [chunkBatchesGo, List.take_succ_cons]
        | ok bembs =>
          rw [hb] at hfail
          simp only [batchFails] at hfail
          constructor
          · simp only [generateEmbeddingsGo, hb, hfail, if_true]
          · simp only [generateEmbeddingsGo, hb, hfail, if_true]
            simp [chunkBatchesGo, List.take_succ_cons]
      | succ j =>
        have hk' : j < (chunkBatchesGo fl ((c :: cs).drop BATCH_SIZE)).length := by
          have := hk
          simp only [chunkBatchesGo, List.length_cons] at this
          omega
        have hget0 : (chunkBatchesGo (fl + 1) (c :: cs)).get
            ⟨0, Nat.lt_trans (Nat.succ_pos j) hk⟩ = (c :: cs).take BATCH_SIZE := rfl
        have h0 := hpre 0 (Nat.succ_pos j)
        rw [hget0] at h0
        cases hb : ec ((c :: cs).take BATCH_SIZE) with
        | error e => rw [hb] at h0; simp [batchFails] at h0
        | ok bembs =>
          rw [hb] at h0
          simp only [batchFails] at h0
          have hpre' : ∀ j' (hj' : j' < j),
              batchFails (ec ((chunkBatchesGo fl ((c :: cs).drop BATCH_SIZE)).get
                ⟨j', Nat.lt_trans hj' hk'⟩)) = false := by
            intro j' hj'
            have := hpre (j' + 1) (Nat.succ_lt_succ hj')
            rwa [show (chunkBatchesGo (fl + 1) (c :: cs)).get
              ⟨j' + 1, Nat.lt_trans (Nat.succ_lt_succ hj') hk⟩ =
              (chunkBatchesGo fl ((c :: cs).drop BATCH_SIZE)).get
                ⟨j', Nat.lt_trans hj' hk'⟩ from rfl] at this
          have hfail' : batchFails (ec ((chunkBatchesGo fl ((c :: cs).drop BATCH_SIZE)).get
              ⟨j, hk'⟩)) = true := by
            rwa [show (chunkBatchesGo (fl + 1) (c :: cs)).get ⟨j + 1, hk⟩ =
              (chunkBatchesGo fl ((c :: cs).drop BATCH_SIZE)).get ⟨j, hk'⟩ from rfl] at hfail
          obtain ⟨ih1, ih2⟩ := ih ((c :: cs).drop BATCH_SIZE) j
            (length_drop_batch_le c cs hf) hk' hpre' hfail'
          constructor
          · simp only [generateEmbeddingsGo, hb, h0, Bool.false_eq_true, if_false, ih1]
          · simp only [generateEmbeddingsGo, hb, h0, Bool.false_eq_true, if_false, ih2]
            simp [chunkBatchesGo, List.take_succ_cons]

/-! Helper lemmas about the effect trace of the per-file loop. -/

theorem upserts_append (a b : List Event) : upserts (a ++ b) = upserts a ++ upserts b :=
  List.filterMap_append a b _

theorem upserts_embedCalls (l : List (List String)) :
    upserts (l.map Event.embedCall) = [] := by
  induction l with
  | nil => rfl
  | cons x xs ih => simpa [upserts, List.filterMap_cons] using ih

theorem upserts_single_upsert (c : UpsertCall) :
    upserts [Event.upsertCall c] = [c] := rfl

/-- Every upsert call performed by the per-file loop either was already in
the starting trace or is `buildUpsert` of a file's chunks together with the
embeddings `generateEmbeddings` successfully returned for them. -/
theorem processFiles_upsert_origin (env : Env) :
    ∀ (files : List String) (chunkCount : Nat) (trace : List Event) (c : UpsertCall),
      c ∈ upserts (processFiles env files chunkCount trace).trace →
      c ∈ upserts trace ∨
      ∃ fileName chunks embs, c = buildUpsert fileName chunks embs ∧
        generateEmbeddings env.embedContent chunks = .ok embs := by
  intro files
  induction files with
  | nil => intro cnt tr c hc; exact .inl hc
  | cons f rest ih =>
    intro cnt tr c hc
    cases hx : env.extract f with
    | error e =>
      simp only [processFiles, hx, RunOutcome.trace] at hc
      exact .inl hc
    | ok fullText =>
      by_cases hlen : fullText.length = 0
      · simp only [processFiles, hx, if_pos hlen] at hc
        exact ih cnt tr c hc
      · simp only [processFiles, hx, if_neg hlen] at hc
        by_cases hch : (env.splitText fullText).length = 0
        · simp only [if_pos hch] at hc
          exact ih cnt tr c hc
        · simp only [if_neg hch] at hc
          cases hg : generateEmbeddings env.embedContent (env.splitText fullText) with
          | error e =>
            simp only [hg, RunOutcome.trace, upserts_append, upserts_embedCalls,
              List.append_nil] at hc
            exact .inl hc
          | ok embs =>
            simp only [hg] at hc
            rcases ih _ _ c hc with h | h
            · rw [upserts_append, upserts_append, upserts_embedCalls, List.append_nil,
                upserts_single_upsert] at h
              rcases List.mem_append.mp h with h' | h'
              · exact .inl h'
              · refine .inr ⟨f, env.splitText fullText, embs, ?_, hg⟩
                simpa using h'
            · exact .inr h

/-- A thrown error reaching the top-level catch of `ingestDocuments` is
converted into the failure result, the trace staying as it was at the
throw. -/
theorem ingest_err (env : Env) (msg : String) (trace2 : List Event)
    (hcon : env.connect = .ok ())
    (hne : (env.files.filter fun f => jsEndsWith f ".pdf").length ≠ 0)
    (hrun : processFiles env (env.files.filter fun f => jsEndsWith f ".pdf") 0 [] =
      .err msg trace2) :
    ingestDocuments env = ({ success := false, count := 0, error := some msg }, trace2) := by
  simp only [ingestDocuments, hcon, if_neg hne, hrun]

/-- Every upsert call of a whole `ingestDocuments` run is `buildUpsert` of
a file's chunks and the embeddings returned for them. -/
theorem ingest_upsert_origin (env : Env) (c : UpsertCall)
    (hc : c ∈ upserts (ingestDocuments env).2) :
    ∃ fileName chunks embs, c = buildUpsert fileName chunks embs ∧
      generateEmbeddings env.embedContent chunks = .ok embs := by
  cases hcon : env.connect with
  | error e => simp [ingestDocuments, hcon, upserts] at hc
  | ok u =>
    by_cases hlen : (env.files.filter fun f => jsEndsWith f ".pdf").length = 0
    · simp [ingestDocuments, hcon, hlen, upserts] at hc
    · have h2 : (ingestDocuments env).2 =
          (processFiles env (env.files.filter fun f => jsEndsWith f ".pdf") 0 []).trace := by
        simp only [ingestDocuments, hcon, if_neg hlen]
        cases processFiles env (env.files.filter fun f => jsEndsWith f ".pdf") 0 [] <;> rfl
      rw [h2] at hc
      rcases processFiles_upsert_origin env _ 0 [] c hc with h | h
      · simp [upserts] at h
      · exact h

/-! The claims. -/

/-- C1, counterexample: the claim says a file whose PDF content cannot be
parsed (the extractor throws) is skipped and processing continues.  On the
code it is false: in `c1Env` extraction throws on `a.pdf`, and the run
aborts with the failure result — the parseable `b.pdf` is never processed
and no external call at all is made (empty trace). -/
theorem c1_counterexample :
    ingestDocuments c1Env =
      ({ success := false, count := 0, error := some pdfParseError }, []) ∧
    (ingestDocuments c1Env).1.success = false :=
  ⟨rfl, rfl⟩

/-- C1, amended: when the text extractor throws on a file, the error is
not caught per file: the loop stops at that file — it is not skipped, the
remaining files are not processed, nothing further is embedded or
upserted — and the top-level catch converts the error into the failure
result `{ success: false, count: 0, error }`.  (Only a file whose
extracted text is empty is skipped with processing continuing, cf. C8.) -/
theorem c1_parse_error_aborts :
    (∀ (env : Env) (fileName : String) (rest : List String) (chunkCount : Nat)
        (trace : List Event) (e : String),
        env.extract fileName = .error e →
        processFiles env (fileName :: rest) chunkCount trace = .err e trace) ∧
    (∀ (env : Env) (e : String) (trace2 : List Event),
        env.connect = .ok () →
        (env.files.filter fun f => jsEndsWith f ".pdf").length ≠ 0 →
        processFiles env (env.files.filter fun f => jsEndsWith f ".pdf") 0 [] =
          .err e trace2 →
        ingestDocuments env = ({ success := false, count := 0, error := some e }, trace2)) := by
  constructor
  · intro env fileName rest cnt tr e hx
    simp only [processFiles, hx]
  · intro env e tr2 hcon hne hrun
    exact ingest_err env e tr2 hcon hne hrun

/-- C1, witness: the amended behaviour at the concrete two-file scenario. -/
theorem c1_witness :
    processFiles c1Env ["a.pdf", "b.pdf"] 0 [] = .err pdfParseError [] ∧
    ingestDocuments c1Env =
      ({ success := false, count := 0, error := some pdfParseError }, []) :=
  ⟨c1_parse_error_aborts.1 c1Env "a.pdf" ["b.pdf"] 0 [] pdfParseError rfl,
   c1_parse_error_aborts.2 c1Env pdfParseError [] rfl (by decide) rfl⟩

/-- C2: every file that reaches the upsert step passes four arrays of
equal length to `collection.upsert` — ids, embeddings, documents (the
chunk list itself) and metadatas — the common length being the number of
chunks produced for the file, assuming the embedding service returns one
vector per submitted text. -/
theorem c2_upsert_arrays_aligned (env : Env) (c : UpsertCall)
    (hec : ∀ b e, env.embedContent b = .ok e → e.length = b.length)
    (hc : c ∈ upserts (ingestDocuments env).2) :
    c.ids.length = c.documents.length ∧
    c.embeddings.length = c.documents.length ∧
    c.metadatas.length = c.documents.length := by
  obtain ⟨fileName, chunks, embs, rfl, hg⟩ := ingest_upsert_origin env c hc
  have hlen := generateEmbeddingsGo_length env.embedContent hec chunks.length chunks embs
    (Nat.le_refl _) hg
  simp [buildUpsert, mkIds, hlen]

/-- C2, witness: the concrete one-file run of `c2Env` upserts `c2Call`,
whose four arrays all have length 1. -/
theorem c2_witness :
    c2Call.ids.length = c2Call.documents.length ∧
    c2Call.embeddings.length = c2Call.documents.length ∧
    c2Call.metadatas.length = c2Call.documents.length :=
  c2_upsert_arrays_aligned c2Env c2Call
    (fun b e h => by cases h; simp)
    (by rw [show upserts (ingestDocuments c2Env).2 = [c2Call] from rfl]
        exact List.mem_singleton_self c2Call)

/-- C3: with batch size B = `BATCH_SIZE` = 100 and C > 0 chunks,
`generateEmbeddings` makes exactly ceil(C/B) embedding API calls; the
i-th call (0-based) covers the chunks from index i*B, i.e. min(B, C−i*B)
chunks, in input order; the batches concatenate back to the input, and
with a service returning one vector per text the concatenated result is
the input-order image of the chunks. -/
theorem c3_batching (chunks : List String) (h : 0 < chunks.length) :
    BATCH_SIZE = 100 ∧
    (chunkBatches chunks).length = (chunks.length + BATCH_SIZE - 1) / BATCH_SIZE ∧
    (∀ i (hi : i < (chunkBatches chunks).length),
      (chunkBatches chunks).get ⟨i, hi⟩ = (chunks.drop (i * BATCH_SIZE)).take BATCH_SIZE ∧
      ((chunkBatches chunks).get ⟨i, hi⟩).length =
        min BATCH_SIZE (chunks.length - i * BATCH_SIZE)) ∧
    (chunkBatches chunks).flatten = chunks ∧
    (∀ f : String → EmbeddingVector,
      generateEmbeddings (fun b => .ok (b.map f)) chunks = .ok (chunks.map f) ∧
      generateEmbeddingsCalls (fun b => .ok (b.map f)) chunks = chunkBatches chunks) := by
  refine ⟨rfl, chunkBatchesGo_length chunks.length chunks (Nat.le_refl _), ?_,
    chunkBatchesGo_flatten chunks.length chunks (Nat.le_refl _), ?_⟩
  · intro i hi
    have hg : (chunkBatches chunks).get ⟨i, hi⟩ =
        (chunks.drop (i * BATCH_SIZE)).take BATCH_SIZE :=
      chunkBatchesGo_get chunks.length chunks i (Nat.le_refl _) hi
    refine ⟨hg, ?_⟩
    rw [hg, List.length_take, List.length_drop]
  · intro f
    have hm := generateEmbeddingsGo_map f chunks.length chunks (Nat.le_refl _)
    exact ⟨congrArg Prod.fst hm, congrArg Prod.snd hm⟩

/-- C3, witness: the batching facts at a concrete two-chunk list (one
call of 2 chunks). -/
theorem c3_witness :
    0 < (["alpha", "beta"] : List String).length ∧
    (chunkBatches ["alpha", "beta"]).length =
      ((["alpha", "beta"] : List String).length + BATCH_SIZE - 1) / BATCH_SIZE ∧
    (chunkBatches ["alpha", "beta"]).flatten = ["alpha", "beta"] ∧
    generateEmbeddings (fun b => .ok (b.map fun _ => [])) ["alpha", "beta"] =
      .ok ((["alpha", "beta"] : List String).map fun _ => []) :=
  ⟨by decide,
   (c3_batching ["alpha", "beta"] (by decide)).2.1,
   (c3_batching ["alpha", "beta"] (by decide)).2.2.2.1,
   ((c3_batching ["alpha", "beta"] (by decide)).2.2.2.2 (fun _ => [])).1⟩

/-- C4: with zero `.pdf` files in the directory listing,
`ingestDocuments` returns the failure result `{ success: false, count: 0 }`
with the descriptive error string (and performs no external call); the
model is total, so nothing is thrown. -/
theorem c4_no_pdf_failure (env : Env)
    (hcon : env.connect = .ok ())
    (hfilter : env.files.filter (fun f => jsEndsWith f ".pdf") = []) :
    ingestDocuments env =
      ({ success := false, count := 0, error := some noPdfFilesError }, []) ∧
    noPdfFilesError ≠ "" := by
  refine ⟨?_, by decide⟩
  simp [ingestDocuments, hcon, hfilter]

/-- C4, witness: the failure result at the concrete pdf-less directory. -/
theorem c4_witness :
    ingestDocuments c4Env =
      ({ success := false, count := 0, error := some noPdfFilesError }, []) :=
  (c4_no_pdf_failure c4Env rfl (by decide)).1

/-- C5: if any embedding batch fails (the API call errors, or returns no
embeddings) while every earlier batch succeeded, `generateEmbeddings`
raises `geminiApiError` at that batch: its call log is cut at the failing
batch (no retry, no later batch); the per-file loop stops at that file (no
later file is processed), and `ingestDocuments` converts the error into
the failure result `{ success: false, error }` instead of throwing. -/
theorem c5_batch_failure_aborts :
    (∀ (ec : List String → Except String (List EmbeddingVector)) (chunks : List String)
        (k : Nat) (hk : k < (chunkBatches chunks).length),
        (∀ j (hj : j < k),
          batchFails (ec ((chunkBatches chunks).get ⟨j, Nat.lt_trans hj hk⟩)) = false) →
        batchFails (ec ((chunkBatches chunks).get ⟨k, hk⟩)) = true →
        generateEmbeddings ec chunks = .error geminiApiError ∧
        generateEmbeddingsCalls ec chunks = (chunkBatches chunks).take (k + 1)) ∧
    (∀ (env : Env) (fileName : String) (rest : List String) (chunkCount : Nat)
        (trace : List Event) (fullText : String),
        env.extract fileName = .ok fullText →
        fullText.length ≠ 0 →
        (env.splitText fullText).length ≠ 0 →
        generateEmbeddings env.embedContent (env.splitText fullText) =
          .error geminiApiError →
        processFiles env (fileName :: rest) chunkCount trace =
          .err geminiApiError (trace ++
            (generateEmbeddingsCalls env.embedContent (env.splitText fullText)).map
              Event.embedCall)) ∧
    (∀ (env : Env) (msg : String) (trace2 : List Event),
        env.connect = .ok () →
        (env.files.filter fun f => jsEndsWith f ".pdf").length ≠ 0 →
        processFiles env (env.files.filter fun f => jsEndsWith f ".pdf") 0 [] =
          .err msg trace2 →
        ingestDocuments env =
          ({ success := false, count := 0, error := some msg }, trace2)) := by
  refine ⟨?_, ?_, ?_⟩
  · intro ec chunks k hk hpre hfail
    exact generateEmbeddingsGo_fail ec chunks.length chunks k (Nat.le_refl _) hk hpre hfail
  · intro env fileName rest cnt tr fullText hx hlen hch hg
    simp only [processFiles, hx, if_neg hlen, if_neg hch, hg]
  · intro env msg tr2 hcon hne hrun
    exact ingest_err env msg tr2 hcon hne hrun

/-- C5, witness: a failing single batch at concrete inputs — the loop and
the whole run abort with the Gemini failure result. -/
theorem c5_witness :
    (generateEmbeddings (fun _ => .error "boom") ["c"] = .error geminiApiError ∧
      generateEmbeddingsCalls (fun _ => .error "boom") ["c"] =
        (chunkBatches ["c"]).take 1) ∧
    processFiles c5Env ["a.pdf"] 0 [] =
      .err geminiApiError ([] ++
        (generateEmbeddingsCalls c5Env.embedContent (c5Env.splitText "some text")).map
          Event.embedCall) ∧
    ingestDocuments c5Env =
      ({ success := false, count := 0, error := some geminiApiError },
        [Event.embedCall ["some text"]]) :=
  ⟨c5_batch_failure_aborts.1 (fun _ => .error "boom") ["c"] 0 (by decide)
      (fun j hj => absurd hj (Nat.not_lt_zero j)) rfl,
   c5_batch_failure_aborts.2.1 c5Env "a.pdf" [] 0 [] "some text" rfl (by decide)
      (by decide) rfl,
   c5_batch_failure_aborts.2.2 c5Env geminiApiError [Event.embedCall ["some text"]] rfl
      (by decide) rfl⟩

/-- C6: the ids a file's upsert passes are exactly the strings
`{fileName}-{i}` for i = 0 .. chunkCount−1 (`buildUpsert`/`mkIds`), and
they are a function of the file name and chunk list alone — the
embeddings do not enter — so re-ingesting an unchanged file (same name,
same chunk list) produces exactly the same ids: the upsert step is
idempotent by id. -/
theorem c6_ids_deterministic (env : Env) (c : UpsertCall)
    (hc : c ∈ upserts (ingestDocuments env).2) :
    (∃ fileName chunks embs,
        c = buildUpsert fileName chunks embs ∧
        c.ids = (List.range chunks.length).map (fun i => fileName ++ "-" ++ toString i) ∧
        c.documents = chunks) ∧
    (∀ (fileName : String) (chunks : List String) (e e' : List EmbeddingVector),
        (buildUpsert fileName chunks e).ids = (buildUpsert fileName chunks e').ids) := by
  refine ⟨?_, fun _ _ _ _ => rfl⟩
  obtain ⟨fileName, chunks, embs, rfl, _⟩ := ingest_upsert_origin env c hc
  exact ⟨fileName, chunks, embs, rfl, rfl, rfl⟩

/-- C6, witness: in the concrete run the single upsert's ids are
`a.pdf-0`, and ids do not depend on the embedding values. -/
theorem c6_witness :
    (buildUpsert "a.pdf" ["some text"] [[]]).ids =
      (buildUpsert "a.pdf" ["some text"] [[], []]).ids ∧
    c2Call.ids = ["a.pdf-0"] :=
  ⟨(c6_ids_deterministic c2Env c2Call
      (by rw [show upserts (ingestDocuments c2Env).2 = [c2Call] from rfl]
          exact List.mem_singleton_self c2Call)).2
      "a.pdf" ["some text"] [[]] [[], []],
   rfl⟩

/-- C7, counterexample: the claim says a body with a `query` field present
is answered 200; but the body `{"query": ""}` has the field present and
the handler answers 400 (it tests truthiness, not presence). -/
theorem c7_counterexample :
    (POST (.ok (some "")) (fun q => .ok q)).1.status = 400 ∧
    ¬ (POST (.ok (some "")) (fun q => .ok q)).1.status = 200 :=
  ⟨rfl, by decide⟩

/-- C7, amended: for every POST to the chat endpoint: a body that fails
to parse yields 500 with `error` and `details` JSON fields; an absent or
falsy (empty-string) `query` yields 400 with an `error` field; a present
truthy `query` yields 200 with Content-Type text/plain and chunked
transfer encoding streaming the RAG output when the retrieval+generation
routine returns, and 500 with `error` and `details` when it throws. -/
theorem c7_amended (rag : String → Except String String) (query stream e perr : String)
    (hq : query ≠ "") :
    ((POST (.error perr) rag).1 = jsonResponse500 perr) ∧
    ((POST (.ok none) rag).1 = jsonResponse400 ∧
      (POST (.ok none) rag).1.status = 400 ∧
      (POST (.ok none) rag).1.errorField = some missingQueryError) ∧
    ((POST (.ok (some "")) rag).1 = jsonResponse400) ∧
    (rag query = .ok stream →
      (POST (.ok (some query)) rag).1 = streamResponse200 stream ∧
      (POST (.ok (some query)) rag).1.status = 200 ∧
      (POST (.ok (some query)) rag).1.contentType = some "text/plain; charset=utf-8" ∧
      (POST (.ok (some query)) rag).1.transferEncoding = some "chunked" ∧
      (POST (.ok (some query)) rag).1.streamBody = some stream) ∧
    (rag query = .error e →
      (POST (.ok (some query)) rag).1 = jsonResponse500 e ∧
      (POST (.ok (some query)) rag).1.status = 500 ∧
      (POST (.ok (some query)) rag).1.errorField = some ragProcessingError ∧
      (POST (.ok (some query)) rag).1.detailsField = some e) := by
  refine ⟨rfl, ⟨rfl, rfl, rfl⟩, rfl, ?_, ?_⟩
  · intro hr
    simp only [POST, if_neg hq, hr]
    exact ⟨trivial, rfl, rfl, rfl, rfl⟩
  · intro hr
    simp only [POST, if_neg hq, hr]
    exact ⟨trivial, rfl, rfl, rfl⟩

/-- C7, witness: the three response shapes at concrete requests. -/
theorem c7_witness :
    (POST (.ok (some "hi")) (fun _ => .ok "S")).1.status = 200 ∧
    (POST (.ok (some "hi")) (fun _ => .error "x")).1.status = 500 ∧
    (POST (.ok none) (fun _ => .ok "S")).1.status = 400 :=
  ⟨((c7_amended (fun _ => .ok "S") "hi" "S" "x" "p" (by decide)).2.2.2.1 rfl).2.1,
   ((c7_amended (fun _ => .error "x") "hi" "S" "x" "p" (by decide)).2.2.2.2 rfl).2.1,
   (c7_amended (fun _ => .ok "S") "hi" "S" "x" "p" (by decide)).2.1.2.1⟩

/-- C9: a POST whose JSON body binds `query` to the falsy empty string is
answered 400 exactly as if the field were absent, and the retrieval
routine `runRAGChat` is never invoked (the invocation flag is false). -/
theorem c9_falsy_query_rejected (rag : String → Except String String) :
    POST (.ok (some "")) rag = (jsonResponse400, false) ∧
    POST (.ok (some "")) rag = POST (.ok none) rag ∧
    (POST (.ok (some "")) rag).2 = false :=
  ⟨rfl, rfl, rfl⟩

/-- C8: a file whose extracted (trimmed) text is empty is skipped after
the warning: the loop on `fileName :: rest` equals the loop on `rest` —
the file contributes zero chunks to the count and no embedding call and
no upsert to the trace, and processing continues with the remaining
files. -/
theorem c8_empty_text_skipped (env : Env) (fileName : String) (rest : List String)
    (chunkCount : Nat) (trace : List Event)
    (hx : env.extract fileName = .ok "") :
    processFiles env (fileName :: rest) chunkCount trace =
      processFiles env rest chunkCount trace := by
  simp [processFiles, hx]

/-- C8, witness: the concrete skip of `empty.pdf`. -/
theorem c8_witness :
    processFiles c8Env ["empty.pdf", "b.pdf"] 0 [] = processFiles c8Env ["b.pdf"] 0 [] :=
  c8_empty_text_skipped c8Env "empty.pdf" ["b.pdf"] 0 [] rfl

/-- C10: the run is not atomic with respect to its reported count: every
failure result reports count 0 no matter how many records were already
upserted, and in the concrete scenario — first file upserted, embedding
failure on the second — the first file's upsert stays in the trace
(nothing is rolled back) while the result is
`{ success: false, count: 0 }`. -/
theorem c10_failure_count_zero (env : Env)
    (h : (ingestDocuments env).1.success = false) :
    (ingestDocuments env).1.count = 0 ∧
    (ingestDocuments c10Env).1 =
      { success := false, count := 0, error := some geminiApiError } ∧
    upserts (ingestDocuments c10Env).2 = [buildUpsert "a.pdf" ["a.pdf"] [[]]] := by
  refine ⟨?_, rfl, rfl⟩
  cases hcon : env.connect with
  | error e => simp [ingestDocuments, hcon]
  | ok u =>
    by_cases hlen : (env.files.filter fun f => jsEndsWith f ".pdf").length = 0
    · simp [ingestDocuments, hcon, hlen]
    · cases hrun : processFiles env (env.files.filter fun f => jsEndsWith f ".pdf") 0 [] with
      | ok cnt tr =>
        simp only [ingestDocuments, hcon, if_neg hlen, hrun] at h
        exact absurd h (by decide)
      | err e tr =>
        simp [ingestDocuments, hcon, hlen, hrun]

/-- C10, witness: the count of the failed concrete run is 0. -/
theorem c10_witness :
    (ingestDocuments c10Env).1.count = 0 :=
  (c10_failure_count_zero c10Env (by decide)).1

end RagPipeline
